import Mathlib

/-!
Verification development for the UUB SDK acquisition tools
(`adc_check_ramp.c`, `netscope.c`, `adcramp.c`).

The C sources are shallowly embedded: buffers become functions `Nat → Nat`
(byte or 32-bit word value at an index), machine integers become `Nat` with
explicit masking where overflow or truncation matters, straight-line
register/side-effect code becomes explicit state passing together with an
action trace, and calls that may terminate the process return `Except`.
-/

namespace ESS

/-! ## Shared constants (from `shwr_evt_defs.h` values quoted in the sources) -/

def SHWR_MAX_VAL : Nat := 4096        -- 1 << 12
def SHWR_RAW_NCH_MAX : Nat := 5
def SHWR_NCH_MAX : Nat := 2 * SHWR_RAW_NCH_MAX
def SHWR_NSAMPLES : Nat := 2048
def DATASIZE : Nat := SHWR_NSAMPLES * SHWR_RAW_NCH_MAX   -- words, adc_check_ramp.c

/-! ## Sample unpacker: `convert_databuf` (adc_check_ramp.c:257-270)

The staging buffer `databuf` is a flat array of `5 * 2048` packed 32-bit
words, modelled as a function from word index to word value.  The C
function walks a pointer `cur_ptr` from `databuf + adc*NSAMPLES + start`,
wrapping to `stop_ptr - NSAMPLES` when it reaches
`stop_ptr = databuf + (adc+1)*NSAMPLES`. -/

/-- One pointer advance of `convert_databuf`'s inner loop for raw channel
`adc`: `if (++cur_ptr == stop_ptr) cur_ptr = stop_ptr - SHWR_NSAMPLES`. -/
def convert_step (adc cur : Nat) : Nat :=
  if cur + 1 = (adc + 1) * SHWR_NSAMPLES then (adc + 1) * SHWR_NSAMPLES - SHWR_NSAMPLES
  else cur + 1

/-- Word index read at inner-loop iteration `i` for raw channel `adc`,
starting from `databuf + adc*SHWR_NSAMPLES + start`. -/
def convert_idx (adc start i : Nat) : Nat :=
  (convert_step adc)^[i] (adc * SHWR_NSAMPLES + start)

/-- `convert_databuf` (adc_check_ramp.c:257-270): the trace entry for logical
channel `ch` at sample `i`, given the staging buffer and the header's
`shwr_buf_start`.  Even logical channels take the low 12 bits of the packed
word, odd ones take bits 16..27 (`(*cur_ptr >> 16) & 0xfff`). -/
def convert_databuf (databuf : Nat → Nat) (start ch i : Nat) : Nat :=
  if ch % 2 = 0 then databuf (convert_idx (ch / 2) start i) &&& 0xfff
  else (databuf (convert_idx (ch / 2) start i) >>> 16) &&& 0xfff

lemma convert_step_mod (adc m : Nat) (hm : m < 2048) :
    convert_step adc (adc * 2048 + m) = adc * 2048 + (m + 1) % 2048 := by
  unfold convert_step
  simp only [SHWR_NSAMPLES]
  by_cases hend : m + 1 = 2048
  · rw [if_pos (by omega), hend]
    omega
  · rw [if_neg (by omega), Nat.mod_eq_of_lt (by omega)]
    omega

lemma convert_idx_eq (adc start : Nat) (hs : start < 2048) (i : Nat) :
    convert_idx adc start i = adc * 2048 + (start + i) % 2048 := by
  induction i with
  | zero =>
      simp [convert_idx, SHWR_NSAMPLES, Nat.mod_eq_of_lt hs]
  | succ n ih =>
      have hstep : convert_idx adc start (n + 1)
          = convert_step adc (convert_idx adc start n) := by
        simp [convert_idx, Function.iterate_succ_apply']
      rw [hstep, ih, convert_step_mod adc _ (Nat.mod_lt _ (by omega)),
        show start + (n + 1) = (start + n) + 1 from rfl, Nat.add_mod start n,
        Nat.add_mod (start + n) 1]
      simp

/-- C1: for every staging buffer of `5*2048` packed words and every start
offset `s < 2048`, `convert_databuf` fills trace channel `2c` at sample `i`
with the low 12 bits of word `databuf[c*2048 + ((s+i) mod 2048)]` and
channel `2c+1` with bits 16..27 of the same word; the wraparound rotates
inside channel `c`'s own 2048-word range. -/
theorem convert_databuf_spec (databuf : Nat → Nat) (s : Nat) (hs : s < 2048)
    (c : Nat) (hc : c < 5) (i : Nat) (hi : i < 2048) :
    convert_databuf databuf s (2 * c) i
        = databuf (c * 2048 + (s + i) % 2048) % 4096 ∧
    convert_databuf databuf s (2 * c + 1) i
        = databuf (c * 2048 + (s + i) % 2048) / 2 ^ 16 % 4096 := by
  have hidx : convert_idx c s i = c * 2048 + (s + i) % 2048 :=
    convert_idx_eq c s hs i
  have hmask : ∀ n : Nat, n &&& 0xfff = n % 4096 := by
    intro n
    have := Nat.and_pow_two_sub_one_eq_mod n 12
    simpa using this
  constructor
  · have hch : 2 * c % 2 = 0 := by omega
    have hdiv : 2 * c / 2 = c := by omega
    simp [convert_databuf, hch, hdiv, hidx, hmask]
  · have hch : (2 * c + 1) % 2 = 1 := by omega
    have hdiv : (2 * c + 1) / 2 = c := by omega
    simp [convert_databuf, hch, hdiv, hidx, hmask, Nat.shiftRight_eq_div_pow]

/-- Witness for C1 at a concrete buffer, start offset, channel and sample. -/
theorem convert_databuf_spec_witness :
    5 < 2048 ∧ 2 < 5 ∧ 7 < 2048 ∧
    (convert_databuf (fun n => n) 5 (2 * 2) 7
        = (2 * 2048 + (5 + 7) % 2048) % 4096 ∧
     convert_databuf (fun n => n) 5 (2 * 2 + 1) 7
        = (2 * 2048 + (5 + 7) % 2048) / 2 ^ 16 % 4096) :=
  ⟨by decide, by decide, by decide,
    convert_databuf_spec (fun n => n) 5 (by decide) 2 (by decide) 7 (by decide)⟩

/-! ## Self-test evaluator: `evaluate_ramp` (adc_check_ramp.c:287-300)

A `Trace` is modelled as a function from logical channel and sample index
to the (12-bit) sample value.  The C inner loop sets bit `ch` of the
result and `break`s at the first mismatch; setting the bit once is
equivalent to setting it at the first mismatch, so the per-channel check
is embedded as an existence test over the sample range. -/

/-- Per-channel check of `evaluate_ramp`: `true` iff some sample violates
`trace[2ch][i] == trace[2ch+1][i] && (trace[2ch][i] + i) % SHWR_MAX_VAL == sum`
with `sum = trace[2ch][0]`. -/
def chFails (trace : Nat → Nat → Nat) (ch : Nat) : Bool :=
  let sum := trace (2 * ch) 0
  (List.range SHWR_NSAMPLES).any fun i =>
    trace (2 * ch) i != trace (2 * ch + 1) i
      || (trace (2 * ch) i + i) % SHWR_MAX_VAL != sum

/-- `evaluate_ramp` (adc_check_ramp.c:287-300): OR together `1 << ch` for
every failing raw channel. -/
def evaluate_ramp (trace : Nat → Nat → Nat) : Nat :=
  (List.range SHWR_RAW_NCH_MAX).foldl
    (fun result ch => if chFails trace ch then result ||| (1 <<< ch) else result) 0

/-- The tail of `main` (adc_check_ramp.c:550-553): the process exit code is
the value returned by `evaluate_ramp`. -/
def adc_check_ramp_exit (trace : Nat → Nat → Nat) : Nat :=
  evaluate_ramp trace

lemma chFails_iff (trace : Nat → Nat → Nat) (ch : Nat) :
    chFails trace ch = true ↔
      ∃ i, i < 2048 ∧ (trace (2 * ch) i ≠ trace (2 * ch + 1) i ∨
        (trace (2 * ch) i + i) % 4096 ≠ trace (2 * ch) 0) := by
  simp [chFails, List.any_eq_true, List.mem_range, SHWR_NSAMPLES, SHWR_MAX_VAL]

lemma evaluate_ramp_fold (trace : Nat → Nat → Nat) :
    evaluate_ramp trace =
      (((((if chFails trace 0 then 0 ||| 1 else 0) |||
          if chFails trace 1 then 2 else 0) |||
          if chFails trace 2 then 4 else 0) |||
          if chFails trace 3 then 8 else 0) |||
          if chFails trace 4 then 16 else 0) := by
  have : List.range SHWR_RAW_NCH_MAX = [0, 1, 2, 3, 4] := by decide
  rw [evaluate_ramp, this]
  simp only [List.foldl]
  cases chFails trace 0 <;> cases chFails trace 1 <;> cases chFails trace 2 <;>
    cases chFails trace 3 <;> cases chFails trace 4 <;> decide

/-- C2: `evaluate_ramp` returns a bitmask in `0..31` whose bit `c` is set
iff some sample index witnesses a mismatch on raw channel `c`, and `main`
returns that bitmask unchanged as the exit code. -/
theorem evaluate_ramp_spec (trace : Nat → Nat → Nat) (c : Nat) (hc : c < 5) :
    evaluate_ramp trace < 32 ∧
    (Nat.testBit (evaluate_ramp trace) c = true ↔
      ∃ i, i < 2048 ∧ (trace (2 * c) i ≠ trace (2 * c + 1) i ∨
        (trace (2 * c) i + i) % 4096 ≠ trace (2 * c) 0)) ∧
    adc_check_ramp_exit trace = evaluate_ramp trace := by
  refine ⟨?_, ?_, rfl⟩
  · rw [evaluate_ramp_fold]
    cases chFails trace 0 <;> cases chFails trace 1 <;> cases chFails trace 2 <;>
      cases chFails trace 3 <;> cases chFails trace 4 <;> decide
  · rw [← chFails_iff trace c, evaluate_ramp_fold]
    interval_cases c <;>
      (cases h0 : chFails trace 0 <;> cases h1 : chFails trace 1 <;>
       cases h2 : chFails trace 2 <;> cases h3 : chFails trace 3 <;>
       cases h4 : chFails trace 4 <;> decide)

/-- Witness for C2 at a concrete trace and channel. -/
theorem evaluate_ramp_spec_witness :
    3 < 5 ∧
    (evaluate_ramp (fun _ _ => 0) < 32 ∧
     (Nat.testBit (evaluate_ramp (fun _ _ => 0)) 3 = true ↔
       ∃ i, i < 2048 ∧ ((fun _ _ => 0 : Nat → Nat → Nat) (2 * 3) i ≠
           (fun _ _ => 0 : Nat → Nat → Nat) (2 * 3 + 1) i ∨
         ((fun _ _ => 0 : Nat → Nat → Nat) (2 * 3) i + i) % 4096 ≠
           (fun _ _ => 0 : Nat → Nat → Nat) (2 * 3) 0)) ∧
     adc_check_ramp_exit (fun _ _ => 0) = evaluate_ramp (fun _ _ => 0)) :=
  ⟨by decide, evaluate_ramp_spec (fun _ _ => 0) 3 (by decide)⟩

/-! ## Remote ramp-toggle server (adcramp.c:197-231)

An inbound datagram is a list of byte values.  `recvfrom` is called with a
buffer of `MSGLEN = 18` bytes; a datagram whose received length differs
from 18 is silently dropped (`continue`, no reply).  For a full message,
`buf[17]` is overwritten with a NUL sentinel, the first 17 bytes are
scanned, and one reply datagram is sent whose first byte is the status
`resp`. -/

def MSGLEN : Nat := 18
def NADC : Nat := 5
def MASK_CMD : Nat := 0x40
def MASK_ON : Nat := 0x20
def MASK_ADC : Nat := 0x1C
def SH_ADC : Nat := 2
def MASK_CHS : Nat := 0x03
def CMD_QUIT : Nat := 0x21
def RESP_BASE : Nat := 0x20
def RESP_ERR : Nat := 0x10

/-- The command-scanning loop of adcramp.c `main` (lines 211-228):
`resp` starts at `RESP_BASE`; a NUL byte ends the scan, a quit byte
increments `resp` and ends the scan, a byte with `MASK_CMD` set is a ramp
command (error and stop if its device index is ≥ `NADC`, else `resp`
increments), any other byte sets `RESP_ERR` and stops. -/
def scanmsg : List Nat → Nat → Nat
  | [], resp => resp
  | c :: rest, resp =>
    if c = 0 then resp
    else if c = CMD_QUIT then resp + 1
    else if c &&& MASK_CMD ≠ 0 then
      if NADC ≤ (c &&& MASK_ADC) >>> SH_ADC then resp ||| RESP_ERR
      else scanmsg rest (resp + 1)
    else resp ||| RESP_ERR

/-- The per-datagram behaviour of the adcramp server: reply status byte for
a full-length message, no reply otherwise. -/
def adcramp_reply (msg : List Nat) : Option Nat :=
  if msg.length = MSGLEN then some (scanmsg (msg.take (MSGLEN - 1)) RESP_BASE)
  else none

/-- The condition under which C9 says the error bit is set: some byte,
before any quit byte, is neither a valid ramp command with in-range device
index nor the quit command. -/
def c9ErrCondition (msg : List Nat) : Prop :=
  ∃ i, i < 17 ∧ (∀ j, j < i → msg.getD j 0 ≠ CMD_QUIT) ∧
    (msg.getD i 0 ≠ CMD_QUIT ∧
      (msg.getD i 0 &&& MASK_CMD = 0 ∨ NADC ≤ (msg.getD i 0 &&& MASK_ADC) >>> SH_ADC))

/-- Counterexample to C9: a full message of 17 valid device-0 ramp
commands (byte `0x40`) contains no invalid byte, yet the reply's error bit
(bit 4) is set, because the per-command `resp++` counter overflows from
`0x20 + 16` into the `RESP_ERR` bit. -/
theorem adcramp_reply_cex :
    adcramp_reply (List.replicate 18 0x40) = some 0x31 ∧
    Nat.testBit 0x31 4 = true ∧
    ¬ c9ErrCondition (List.replicate 18 0x40) := by
  refine ⟨by decide, by decide, ?_⟩
  rintro ⟨i, hi, _, _, hbad⟩
  have h40 : (List.replicate 18 (0x40 : Nat)).getD i 0 = 0x40 := by
    interval_cases i <;> decide
  rw [h40] at hbad
  rcases hbad with h | h <;> revert h <;> decide

/-- Number of `resp++` increments performed by the scan loop before it
stops (a processed quit byte counts, mirroring `resp ++; break`). -/
def scanCount : List Nat → Nat
  | [] => 0
  | c :: rest =>
    if c = 0 then 0
    else if c = CMD_QUIT then 1
    else if c &&& MASK_CMD ≠ 0 then
      if NADC ≤ (c &&& MASK_ADC) >>> SH_ADC then 0
      else scanCount rest + 1
    else 0

/-- Whether the scan loop stops because of an invalid byte or an
out-of-range device index (the `resp |= RESP_ERR` paths). -/
def scanErr : List Nat → Bool
  | [] => false
  | c :: rest =>
    if c = 0 then false
    else if c = CMD_QUIT then false
    else if c &&& MASK_CMD ≠ 0 then
      if NADC ≤ (c &&& MASK_ADC) >>> SH_ADC then true
      else scanErr rest
    else true

lemma scanmsg_eq (bs : List Nat) : ∀ resp,
    scanmsg bs resp =
      if scanErr bs then (resp + scanCount bs) ||| RESP_ERR
      else resp + scanCount bs := by
  induction bs with
  | nil => intro resp; simp [scanmsg, scanErr, scanCount]
  | cons c rest ih =>
      intro resp
      by_cases h0 : c = 0
      · simp [scanmsg, scanErr, scanCount, h0]
      · by_cases hq : c = CMD_QUIT
        · simp [scanmsg, scanErr, scanCount, h0, hq, CMD_QUIT]
        · by_cases hcmd : c &&& MASK_CMD ≠ 0
          · by_cases hadc : NADC ≤ (c &&& MASK_ADC) >>> SH_ADC
            · simp [scanmsg, scanErr, scanCount, h0, hq, hcmd, hadc]
            · simp only [scanmsg, scanErr, scanCount, if_neg h0, if_neg hq,
                if_pos hcmd, if_neg hadc]
              rw [ih (resp + 1),
                show resp + 1 + scanCount rest = resp + (scanCount rest + 1) from by omega]
          · simp [scanmsg, scanErr, scanCount, h0, hq, hcmd]

lemma scanCount_le (bs : List Nat) : scanCount bs ≤ bs.length := by
  induction bs with
  | nil => simp [scanCount]
  | cons c rest ih =>
      simp only [scanCount, List.length_cons]
      split
      · omega
      · split
        · omega
        · split
          · split
            · omega
            · omega
          · omega

lemma testBit4_base_add (k : Nat) (hk : k ≤ 17) :
    Nat.testBit (RESP_BASE + k) 4 = decide (16 ≤ k) := by
  interval_cases k <;> decide

lemma testBit4_or_err (n : Nat) : Nat.testBit (n ||| RESP_ERR) 4 = true := by
  have : Nat.testBit (n ||| RESP_ERR) 4
      = (Nat.testBit n 4 || Nat.testBit RESP_ERR 4) := Nat.testBit_or n RESP_ERR 4
  rw [this]
  have : Nat.testBit RESP_ERR 4 = true := by decide
  simp [this]

/-- C9 amended: for every full-length (18-byte) message the server sends
exactly one reply whose status byte is the scan result, and that status
byte's error bit (bit 4) is set iff the scan stopped at an invalid byte or
an out-of-range device index, or at least 16 commands were processed (the
success counter `0x20 + count` overflows into bit 4); a NUL byte merely
terminates the scan; short datagrams get no reply. -/
theorem adcramp_reply_amended (msg : List Nat) (hlen : msg.length = 18) :
    adcramp_reply msg = some (scanmsg (msg.take 17) RESP_BASE) ∧
    (Nat.testBit (scanmsg (msg.take 17) RESP_BASE) 4 = true ↔
      (scanErr (msg.take 17) = true ∨ 16 ≤ scanCount (msg.take 17))) ∧
    (∀ short : List Nat, short.length < 18 → adcramp_reply short = none) := by
  refine ⟨by simp [adcramp_reply, hlen, MSGLEN], ?_, ?_⟩
  · rw [scanmsg_eq]
    have hlen17 : (msg.take 17).length = 17 := by
      rw [List.length_take, hlen]
      decide
    have hcount := scanCount_le (msg.take 17)
    rw [hlen17] at hcount
    by_cases he : scanErr (msg.take 17)
    · rw [if_pos he]
      simp only [he, testBit4_or_err, true_or, iff_true]
    · rw [if_neg (by simp [he]), testBit4_base_add _ hcount]
      simp [he]
  · intro short hshort
    simp [adcramp_reply, MSGLEN]
    omega

/-- Witness for C9's amended theorem at a concrete full-length message. -/
theorem adcramp_reply_amended_witness :
    (List.replicate 18 (0 : Nat)).length = 18 ∧
    (adcramp_reply (List.replicate 18 0)
        = some (scanmsg ((List.replicate 18 0).take 17) RESP_BASE) ∧
     (Nat.testBit (scanmsg ((List.replicate 18 0).take 17) RESP_BASE) 4 = true ↔
       (scanErr ((List.replicate 18 0).take 17) = true ∨
         16 ≤ scanCount ((List.replicate 18 0).take 17))) ∧
     (∀ short : List Nat, short.length < 18 → adcramp_reply short = none)) :=
  ⟨by decide, adcramp_reply_amended (List.replicate 18 0) (by decide)⟩

/-! ## ADC control protocol (adc_check_ramp.c:219-254)

State: the per-device SPI file descriptors `adcfd[5]` and the single
`failedadcfd` marker (adc_check_ramp.c:113-114).  `adc_write` is modelled
against an oracle `wok fd addr cmd` saying whether the 3-byte transfer
completes in full; an incomplete transfer stores the fd in `failedadcfd`
and exits the process with `EXIT_SPIWRITE` (adc_check_ramp.c:226-229),
modelled as `Except.error`.  Every call emits a trace of `AdcEvent`s. -/

def ADDR_CHS : Nat := 0x05
def ADDR_TEST : Nat := 0x0D
def RAMPON : Nat := 0x0F
def RAMPOFF : Nat := 0x00
def EXIT_SPIWRITE : Nat := 39

structure AdcState where
  adcfd : Fin 5 → Int
  failedadcfd : Int

/-- Observable actions of the ADC control layer.  `write` is an attempted
SPI register-write transaction on descriptor `fd`. -/
inductive AdcEvent where
  | write (fd : Int) (addr cmd : Nat)
  | skipped (i : Fin 5)
  | notOpen (i : Fin 5)
deriving DecidableEq

/-- `adc_write` (adc_check_ramp.c:219-231): attempt the transfer; if it
does not complete in full, record the fd in `failedadcfd` and exit with
`EXIT_SPIWRITE`. -/
def adc_write (wok : Int → Nat → Nat → Bool) (st : AdcState) (fd : Int)
    (addr cmd : Nat) : Except (Nat × AdcState) AdcState × List AdcEvent :=
  if wok fd addr cmd then (.ok st, [.write fd addr cmd])
  else (.error (EXIT_SPIWRITE, { st with failedadcfd := fd }), [.write fd addr cmd])

/-- Body of the `adc_settestmode` loop for one device (adc_check_ramp.c:236-244):
skip unopened fds and the fd recorded in `failedadcfd`, otherwise select
both channels and write the test-mode register. -/
def adc_settestmode_dev (wok : Int → Nat → Nat → Bool) (testmode : Nat)
    (i : Fin 5) (st : AdcState) : Except (Nat × AdcState) AdcState × List AdcEvent :=
  let fd := st.adcfd i
  if 0 ≤ fd then
    if fd = st.failedadcfd then (.ok st, [.skipped i])
    else
      match adc_write wok st fd ADDR_CHS MASK_CHS with
      | (.error e, ev) => (.error e, ev)
      | (.ok st1, ev1) =>
        match adc_write wok st1 fd ADDR_TEST testmode with
        | (.error e, ev2) => (.error e, ev1 ++ ev2)
        | (.ok st2, ev2) => (.ok st2, ev1 ++ ev2)
  else (.ok st, [.notOpen i])

/-- The device loop of `adc_settestmode`, stopping at a process exit. -/
def runDevices (wok : Int → Nat → Nat → Bool) (testmode : Nat) :
    List (Fin 5) → AdcState → Except (Nat × AdcState) AdcState × List AdcEvent
  | [], st => (.ok st, [])
  | i :: rest, st =>
    match adc_settestmode_dev wok testmode i st with
    | (.error e, ev) => (.error e, ev)
    | (.ok st1, ev1) =>
      match runDevices wok testmode rest st1 with
      | (r, ev2) => (r, ev1 ++ ev2)

/-- `adc_settestmode` (adc_check_ramp.c:233-246). -/
def adc_settestmode (wok : Int → Nat → Nat → Bool) (testmode : Nat)
    (st : AdcState) : Except (Nat × AdcState) AdcState × List AdcEvent :=
  runDevices wok testmode [0, 1, 2, 3, 4] st

/-- `adc_normal` (adc_check_ramp.c:248-254): restore normal mode via
`adc_settestmode(RAMPOFF)`, then close every fd and mark it `-1`. -/
def adc_normal (wok : Int → Nat → Nat → Bool) (st : AdcState) :
    Except (Nat × AdcState) AdcState × List AdcEvent :=
  match adc_settestmode wok RAMPOFF st with
  | (.error e, ev) => (.error e, ev)
  | (.ok st1, ev) => (.ok { st1 with adcfd := fun _ => -1 }, ev)

/-- Concrete initial state for the counterexample: all five SPI devices
open with distinct descriptors, no failure recorded. -/
def adcState0 : AdcState := { adcfd := fun i => (i : Int), failedadcfd := -1 }

/-- Oracle for the counterexample: transfers on descriptor 0 never
complete in full, all others do. -/
def wokFail0 : Int → Nat → Nat → Bool := fun fd _ _ => fd != 0

/-- Counterexample to C5: with all five devices open and the write on
device 0 failing to complete, `adc_settestmode` terminates the process
(`exit(EXIT_SPIWRITE)` inside `adc_write`) after marking descriptor 0
failed; devices 1..4 are not attempted in this invocation.  The claim
says the process does not terminate. -/
theorem adc_settestmode_cex :
    adc_settestmode wokFail0 RAMPON adcState0
      = (.error (EXIT_SPIWRITE, { adcState0 with failedadcfd := 0 }),
         [.write 0 ADDR_CHS MASK_CHS]) := by
  rfl

lemma settestmode_dev_skip (wok : Int → Nat → Nat → Bool) (tm : Nat)
    (st : AdcState) (i : Fin 5) (hopen : 0 ≤ st.adcfd i)
    (heq : st.adcfd i = st.failedadcfd) :
    adc_settestmode_dev wok tm i st = (.ok st, [.skipped i]) := by
  unfold adc_settestmode_dev
  rw [if_pos hopen, if_pos heq]

lemma settestmode_dev_ok (wok : Int → Nat → Nat → Bool) (tm : Nat)
    (st : AdcState) (i : Fin 5) (hopen : 0 ≤ st.adcfd i)
    (hne : st.adcfd i ≠ st.failedadcfd)
    (hw1 : wok (st.adcfd i) ADDR_CHS MASK_CHS = true)
    (hw2 : wok (st.adcfd i) ADDR_TEST tm = true) :
    adc_settestmode_dev wok tm i st
      = (.ok st, [.write (st.adcfd i) ADDR_CHS MASK_CHS,
                  .write (st.adcfd i) ADDR_TEST tm]) := by
  simp [adc_settestmode_dev, adc_write, hopen, hne, hw1, hw2]

lemma settestmode_dev_fail (wok : Int → Nat → Nat → Bool) (tm : Nat)
    (st : AdcState) (i : Fin 5) (hopen : 0 ≤ st.adcfd i)
    (hne : st.adcfd i ≠ st.failedadcfd)
    (hw1 : wok (st.adcfd i) ADDR_CHS MASK_CHS = false) :
    adc_settestmode_dev wok tm i st
      = (.error (EXIT_SPIWRITE, { st with failedadcfd := st.adcfd i }),
         [.write (st.adcfd i) ADDR_CHS MASK_CHS]) := by
  simp [adc_settestmode_dev, adc_write, hopen, hne, hw1]

/-- Event lists produced per device by a `adc_settestmode` call that skips
the failed device `j` and services every other device. -/
def evSkip (st : AdcState) (j : Fin 5) (tm : Nat) (i : Fin 5) : List AdcEvent :=
  if i = j then [.skipped i]
  else [.write (st.adcfd i) ADDR_CHS MASK_CHS, .write (st.adcfd i) ADDR_TEST tm]

lemma runDevices_all_ok (wok : Int → Nat → Nat → Bool) (tm : Nat)
    (st : AdcState) (ev : Fin 5 → List AdcEvent) :
    ∀ l : List (Fin 5),
      (∀ i ∈ l, adc_settestmode_dev wok tm i st = (.ok st, ev i)) →
      runDevices wok tm l st = (.ok st, (l.map ev).flatten) := by
  intro l
  induction l with
  | nil => intro _; simp [runDevices]
  | cons i rest ih =>
      intro h
      have hi := h i (by simp)
      have hrest := ih (fun x hx => h x (by simp [hx]))
      simp [runDevices, hi, hrest]

lemma settestmode_skips_failed (wok : Int → Nat → Nat → Bool) (tm : Nat)
    (st : AdcState) (j : Fin 5)
    (hopen : ∀ i, 0 ≤ st.adcfd i)
    (hfail : st.failedadcfd = st.adcfd j)
    (hok : ∀ i : Fin 5, i ≠ j → ∀ a c, wok (st.adcfd i) a c = true)
    (hinj : ∀ i : Fin 5, st.adcfd i = st.adcfd j → i = j) :
    adc_settestmode wok tm st
      = (.ok st, (([0, 1, 2, 3, 4] : List (Fin 5)).map (evSkip st j tm)).flatten) := by
  apply runDevices_all_ok
  intro i _
  by_cases hij : i = j
  · subst hij
    rw [settestmode_dev_skip wok tm st i (hopen i) hfail.symm]
    simp [evSkip]
  · have hne : st.adcfd i ≠ st.failedadcfd := by
      rw [hfail]
      intro h
      exact hij (hinj i h)
    rw [settestmode_dev_ok wok tm st i (hopen i) hne (hok i hij _ _) (hok i hij _ _)]
    simp [evSkip, hij]

lemma fin5_mem_list (i : Fin 5) : i ∈ ([0, 1, 2, 3, 4] : List (Fin 5)) := by
  fin_cases i <;> decide

lemma skipped_events_no_write (st : AdcState) (j : Fin 5) (tm : Nat)
    (hinj : ∀ i : Fin 5, st.adcfd i = st.adcfd j → i = j) :
    ∀ a c, AdcEvent.write (st.adcfd j) a c
      ∉ (([0, 1, 2, 3, 4] : List (Fin 5)).map (evSkip st j tm)).flatten := by
  intro a c hmem
  rw [List.mem_flatten] at hmem
  obtain ⟨l, hl, hel⟩ := hmem
  rw [List.mem_map] at hl
  obtain ⟨i, _, rfl⟩ := hl
  by_cases hij : i = j
  · simp [evSkip, hij] at hel
  · simp only [evSkip, if_neg hij, List.mem_cons, List.not_mem_nil, or_false] at hel
    rcases hel with h | h <;>
      (injection h with h1 h2 h3; exact hij (hinj i h1.symm))

lemma skipped_events_writes_present (st : AdcState) (j : Fin 5) (tm : Nat) :
    ∀ i : Fin 5, i ≠ j →
      AdcEvent.write (st.adcfd i) ADDR_CHS MASK_CHS
          ∈ (([0, 1, 2, 3, 4] : List (Fin 5)).map (evSkip st j tm)).flatten ∧
      AdcEvent.write (st.adcfd i) ADDR_TEST tm
          ∈ (([0, 1, 2, 3, 4] : List (Fin 5)).map (evSkip st j tm)).flatten := by
  intro i hij
  have hsub : evSkip st j tm i
      ⊆ (([0, 1, 2, 3, 4] : List (Fin 5)).map (evSkip st j tm)).flatten := by
    intro e he
    rw [List.mem_flatten]
    exact ⟨evSkip st j tm i, List.mem_map_of_mem _ (fin5_mem_list i), he⟩
  constructor
  · exact hsub (by simp [evSkip, hij])
  · exact hsub (by simp [evSkip, hij])

/-- C7: once a device `j` is marked failed (`failedadcfd = adcfd[j]`),
every `adc_settestmode` and `adc_normal` call performs no write
transaction on that device and exits the process on no account of it,
while still performing both register writes for every other device; the
failure marker survives both calls, so the device is never retried. -/
theorem adc_failed_device_skipped (st : AdcState) (j : Fin 5)
    (wok : Int → Nat → Nat → Bool) (tm : Nat)
    (hopen : ∀ i, 0 ≤ st.adcfd i)
    (hfail : st.failedadcfd = st.adcfd j)
    (hok : ∀ i : Fin 5, i ≠ j → ∀ a c, wok (st.adcfd i) a c = true)
    (hinj : ∀ i : Fin 5, st.adcfd i = st.adcfd j → i = j) :
    ((adc_settestmode wok tm st).1 = .ok st ∧
     (∀ a c, AdcEvent.write (st.adcfd j) a c ∉ (adc_settestmode wok tm st).2) ∧
     (∀ i : Fin 5, i ≠ j →
       AdcEvent.write (st.adcfd i) ADDR_CHS MASK_CHS ∈ (adc_settestmode wok tm st).2 ∧
       AdcEvent.write (st.adcfd i) ADDR_TEST tm ∈ (adc_settestmode wok tm st).2)) ∧
    ((adc_normal wok st).1 = .ok { st with adcfd := fun _ => -1 } ∧
     (∀ a c, AdcEvent.write (st.adcfd j) a c ∉ (adc_normal wok st).2)) := by
  have hmain := settestmode_skips_failed wok tm st j hopen hfail hok hinj
  have hmain0 := settestmode_skips_failed wok RAMPOFF st j hopen hfail hok hinj
  refine ⟨⟨?_, ?_, ?_⟩, ?_, ?_⟩
  · rw [hmain]
  · rw [hmain]
    exact skipped_events_no_write st j tm hinj
  · rw [hmain]
    exact skipped_events_writes_present st j tm
  · rw [adc_normal, hmain0]
  · rw [adc_normal, hmain0]
    exact skipped_events_no_write st j RAMPOFF hinj

/-- Witness for C7: device 2 marked failed among five open devices. -/
theorem adc_failed_device_skipped_witness :
    (∀ i : Fin 5, 0 ≤ (⟨fun i => (i : Int), 2⟩ : AdcState).adcfd i) ∧
    ((⟨fun i => (i : Int), 2⟩ : AdcState).failedadcfd
      = (⟨fun i => (i : Int), 2⟩ : AdcState).adcfd 2) ∧
    (((adc_settestmode (fun _ _ _ => true) RAMPON (⟨fun i => (i : Int), 2⟩ : AdcState)).1
        = .ok (⟨fun i => (i : Int), 2⟩ : AdcState) ∧
      (∀ a c, AdcEvent.write ((⟨fun i => (i : Int), 2⟩ : AdcState).adcfd 2) a c
        ∉ (adc_settestmode (fun _ _ _ => true) RAMPON (⟨fun i => (i : Int), 2⟩ : AdcState)).2) ∧
      (∀ i : Fin 5, i ≠ 2 →
        AdcEvent.write ((⟨fun i => (i : Int), 2⟩ : AdcState).adcfd i) ADDR_CHS MASK_CHS
          ∈ (adc_settestmode (fun _ _ _ => true) RAMPON (⟨fun i => (i : Int), 2⟩ : AdcState)).2 ∧
        AdcEvent.write ((⟨fun i => (i : Int), 2⟩ : AdcState).adcfd i) ADDR_TEST RAMPON
          ∈ (adc_settestmode (fun _ _ _ => true) RAMPON (⟨fun i => (i : Int), 2⟩ : AdcState)).2)) ∧
     ((adc_normal (fun _ _ _ => true) (⟨fun i => (i : Int), 2⟩ : AdcState)).1
        = .ok { (⟨fun i => (i : Int), 2⟩ : AdcState) with adcfd := fun _ => -1 } ∧
      (∀ a c, AdcEvent.write ((⟨fun i => (i : Int), 2⟩ : AdcState).adcfd 2) a c
        ∉ (adc_normal (fun _ _ _ => true) (⟨fun i => (i : Int), 2⟩ : AdcState)).2))) :=
  ⟨fun i => by fin_cases i <;> decide, rfl,
    adc_failed_device_skipped (⟨fun i => (i : Int), 2⟩ : AdcState) 2
      (fun _ _ _ => true) RAMPON
      (fun i => by fin_cases i <;> decide) rfl
      (fun _ _ _ _ => rfl)
      (fun i h => by fin_cases i <;> revert h <;> decide)⟩

lemma runDevices_error_at (wok : Int → Nat → Nat → Bool) (tm : Nat)
    (st : AdcState) (j : Fin 5) (e : Nat × AdcState) (evj : List AdcEvent)
    (ev : Fin 5 → List AdcEvent)
    (herr : adc_settestmode_dev wok tm j st = (.error e, evj)) :
    ∀ l1 : List (Fin 5),
      (∀ i ∈ l1, adc_settestmode_dev wok tm i st = (.ok st, ev i)) →
      ∀ l2, runDevices wok tm (l1 ++ j :: l2) st
        = (.error e, (l1.map ev).flatten ++ evj) := by
  intro l1
  induction l1 with
  | nil =>
      intro _ l2
      simp [runDevices, herr]
  | cons i rest ih =>
      intro h l2
      have hi := h i (by simp)
      have hrest := ih (fun x hx => h x (by simp [hx])) l2
      simp [runDevices, hi, hrest]

lemma no_write_beyond (st : AdcState) (hinj : Function.Injective st.adcfd)
    (j : Fin 5) (tm : Nat) (l1 : List (Fin 5)) (hl1 : ∀ k ∈ l1, k < j) :
    ∀ i : Fin 5, j < i → ∀ a c,
      AdcEvent.write (st.adcfd i) a c ∉
        ((l1.map (fun k => [AdcEvent.write (st.adcfd k) ADDR_CHS MASK_CHS,
                            AdcEvent.write (st.adcfd k) ADDR_TEST tm])).flatten
          ++ [AdcEvent.write (st.adcfd j) ADDR_CHS MASK_CHS]) := by
  intro i hji a c hmem
  rw [List.mem_append] at hmem
  rcases hmem with hmem | hmem
  · rw [List.mem_flatten] at hmem
    obtain ⟨l, hl, hel⟩ := hmem
    rw [List.mem_map] at hl
    obtain ⟨k, hk, rfl⟩ := hl
    have hki := hl1 k hk
    simp only [List.mem_cons, List.not_mem_nil, or_false] at hel
    rcases hel with h | h <;>
      (injection h with h1 h2 h3; have := hinj h1; omega)
  · simp only [List.mem_cons, List.not_mem_nil, or_false] at hmem
    injection hmem with h1 h2 h3
    have := hinj h1
    omega

/-- C5 amended: when a register write on device `j` does not complete in
full during `adc_settestmode` (devices before `j` succeeding), the process
exits with `EXIT_SPIWRITE` (`exit` inside `adc_write`), first marking
`j`'s descriptor failed, and the devices after `j` are not attempted in
that invocation; any subsequent `adc_settestmode` call (in particular the
exit-time `RAMPOFF` restore registered through `atexit(adc_normal)`)
skips the marked device, with no further fatal exit, while still
attempting both writes on every other device. -/
theorem adc_settestmode_fail_marks_and_skips (st : AdcState) (j : Fin 5)
    (wok wok2 : Int → Nat → Nat → Bool) (tm tm2 : Nat)
    (hopen : ∀ i, 0 ≤ st.adcfd i)
    (hnofail : ∀ i, st.adcfd i ≠ st.failedadcfd)
    (hinj : Function.Injective st.adcfd)
    (hbefore : ∀ i : Fin 5, i < j → ∀ a c, wok (st.adcfd i) a c = true)
    (hfailw : wok (st.adcfd j) ADDR_CHS MASK_CHS = false)
    (hok2 : ∀ i : Fin 5, i ≠ j → ∀ a c, wok2 (st.adcfd i) a c = true) :
    (adc_settestmode wok tm st).1
        = .error (EXIT_SPIWRITE, { st with failedadcfd := st.adcfd j }) ∧
    (∀ i : Fin 5, j < i → ∀ a c,
        AdcEvent.write (st.adcfd i) a c ∉ (adc_settestmode wok tm st).2) ∧
    (adc_settestmode wok2 tm2 { st with failedadcfd := st.adcfd j }).1
        = .ok { st with failedadcfd := st.adcfd j } ∧
    (∀ a c, AdcEvent.write (st.adcfd j) a c
        ∉ (adc_settestmode wok2 tm2 { st with failedadcfd := st.adcfd j }).2) ∧
    (∀ i : Fin 5, i ≠ j →
        AdcEvent.write (st.adcfd i) ADDR_CHS MASK_CHS
          ∈ (adc_settestmode wok2 tm2 { st with failedadcfd := st.adcfd j }).2 ∧
        AdcEvent.write (st.adcfd i) ADDR_TEST tm2
          ∈ (adc_settestmode wok2 tm2 { st with failedadcfd := st.adcfd j }).2) := by
  have hjfail := settestmode_dev_fail wok tm st j (hopen j) (hnofail j) hfailw
  have hbef : ∀ i ∈ (List.finRange 5).takeWhile (fun i => decide (i < j)),
      adc_settestmode_dev wok tm i st
        = (.ok st, [.write (st.adcfd i) ADDR_CHS MASK_CHS,
                    .write (st.adcfd i) ADDR_TEST tm]) := by
    intro i hi
    have hlt : i < j := by
      have := List.mem_takeWhile_imp hi
      simpa using this
    exact settestmode_dev_ok wok tm st i (hopen i) (hnofail i)
      (hbefore i hlt _ _) (hbefore i hlt _ _)
  have hdecomp : ∀ l2, (List.finRange 5).takeWhile (fun i => decide (i < j)) ++ j :: l2
      = [0, 1, 2, 3, 4] → adc_settestmode wok tm st
        = (.error (EXIT_SPIWRITE, { st with failedadcfd := st.adcfd j }),
           (((List.finRange 5).takeWhile (fun i => decide (i < j))).map
             (fun i => [AdcEvent.write (st.adcfd i) ADDR_CHS MASK_CHS,
                        AdcEvent.write (st.adcfd i) ADDR_TEST tm])).flatten
             ++ [.write (st.adcfd j) ADDR_CHS MASK_CHS]) := by
    intro l2 hl2
    rw [adc_settestmode, ← hl2]
    exact runDevices_error_at wok tm st j _ _ _ hjfail _ hbef l2
  have hmain : adc_settestmode wok tm st
      = (.error (EXIT_SPIWRITE, { st with failedadcfd := st.adcfd j }),
         (((List.finRange 5).takeWhile (fun i => decide (i < j))).map
           (fun i => [AdcEvent.write (st.adcfd i) ADDR_CHS MASK_CHS,
                      AdcEvent.write (st.adcfd i) ADDR_TEST tm])).flatten
           ++ [.write (st.adcfd j) ADDR_CHS MASK_CHS]) := by
    fin_cases j
    · exact hdecomp [1, 2, 3, 4] (by decide)
    · exact hdecomp [2, 3, 4] (by decide)
    · exact hdecomp [3, 4] (by decide)
    · exact hdecomp [4] (by decide)
    · exact hdecomp [] (by decide)
  have hinj5 : ∀ i : Fin 5,
      ({ st with failedadcfd := st.adcfd j } : AdcState).adcfd i
        = ({ st with failedadcfd := st.adcfd j } : AdcState).adcfd j → i = j := by
    intro i h
    exact hinj h
  have hskip := settestmode_skips_failed wok2 tm2
    { st with failedadcfd := st.adcfd j } j hopen rfl hok2 hinj5
  refine ⟨?_, ?_, ?_, ?_, ?_⟩
  · rw [hmain]
  · rw [hmain]
    intro i hi a c
    exact no_write_beyond st hinj j tm _
      (fun k hk => by simpa using List.mem_takeWhile_imp hk) i hi a c
  · rw [hskip]
  · rw [hskip]
    exact skipped_events_no_write { st with failedadcfd := st.adcfd j } j tm2 hinj5
  · rw [hskip]
    exact skipped_events_writes_present { st with failedadcfd := st.adcfd j } j tm2

/-- Witness for C5's amended theorem: device 0 fails its first write under
`wokFail0`; the later restore call uses an all-succeeding oracle. -/
theorem adc_settestmode_fail_marks_and_skips_witness :
    wokFail0 (adcState0.adcfd 0) ADDR_CHS MASK_CHS = false ∧
    ((adc_settestmode wokFail0 RAMPON adcState0).1
        = .error (EXIT_SPIWRITE, { adcState0 with failedadcfd := adcState0.adcfd 0 }) ∧
     (∀ i : Fin 5, 0 < i → ∀ a c,
        AdcEvent.write (adcState0.adcfd i) a c ∉ (adc_settestmode wokFail0 RAMPON adcState0).2) ∧
     (adc_settestmode (fun _ _ _ => true) RAMPOFF
          { adcState0 with failedadcfd := adcState0.adcfd 0 }).1
        = .ok { adcState0 with failedadcfd := adcState0.adcfd 0 } ∧
     (∀ a c, AdcEvent.write (adcState0.adcfd 0) a c
        ∉ (adc_settestmode (fun _ _ _ => true) RAMPOFF
            { adcState0 with failedadcfd := adcState0.adcfd 0 }).2) ∧
     (∀ i : Fin 5, i ≠ 0 →
        AdcEvent.write (adcState0.adcfd i) ADDR_CHS MASK_CHS
          ∈ (adc_settestmode (fun _ _ _ => true) RAMPOFF
              { adcState0 with failedadcfd := adcState0.adcfd 0 }).2 ∧
        AdcEvent.write (adcState0.adcfd i) ADDR_TEST RAMPOFF
          ∈ (adc_settestmode (fun _ _ _ => true) RAMPOFF
              { adcState0 with failedadcfd := adcState0.adcfd 0 }).2)) :=
  ⟨by decide,
    adc_settestmode_fail_marks_and_skips adcState0 0 wokFail0 (fun _ _ _ => true)
      RAMPON RAMPOFF
      (fun i => by fin_cases i <;> decide)
      (fun i => by fin_cases i <;> decide)
      (by decide)
      (fun i hi => (Nat.not_lt_zero _ hi).elim)
      (by decide)
      (fun _ _ _ _ => rfl)⟩

/-! ## Trigger-wait and event reader: `read_evt_read` (adc_check_ramp.c:417-461,
netscope.c:313-354)

The two sources contain the same drain sequence (netscope's copy differs
only in its return value).  Register blocks are modelled as functions from
word offset to value; the word offsets themselves come from the hardware
headers (`sde_trigger_defs.h`, `time_tagging.h`), which are not part of
this repository, so they are kept as symbolic named constants — no claim
depends on their numeric values, only on which register is which.
The compound wait (periodic `SIG_WAKEUP` + `sigwaitinfo` loop) is modelled
by its outcome `gotEvent : Bool`: `true` when the loop ended with
`sig == SIG_WAKEUP` (hardware flag set), `false` when `sigwaitinfo`
returned something else, in which case the function returns `-1`
("timed out") having touched nothing. -/

/-- Modelled from the spec: register word offsets of the trigger block and
time-tagging block; the defining header is not in the repository.  Chosen
distinct; no theorem depends on the values. -/
def SHWR_BUF_STATUS_ADDR : Nat := 0
def SHWR_BUF_START_ADDR : Nat := 1
def SHWR_BUF_TRIG_ID_ADDR : Nat := 2
def SHWR_BUF_CONTROL_ADDR : Nat := 3
def TTAG_SHWR_SECONDS_ADDR : Nat := 0
def TTAG_SHWR_NANOSEC_ADDR : Nat := 1

/-- Modelled from the spec: the ready-slot bit field of the status
register; the shift/mask values live in the missing hardware header. -/
def SHWR_BUF_RNUM_SHIFT : Nat := 2
def SHWR_BUF_RNUM_MASK : Nat := 3

/-- Register/memory context of one `read_evt_read` call (the mapped
register windows are read directly, so a snapshot function suffices for
the straight-line drain). -/
structure HwRegs where
  regs : Nat → Nat
  tt_regs : Nat → Nat

structure ReadGlobal where
  id_counter : Nat

/-- The fields of `struct shwr_header` (adc_check_ramp.c:70-75,
netscope.c:69-74). -/
structure EvtHeader where
  id : Nat
  shwr_buf_status : Nat
  shwr_buf_start : Nat
  shwr_buf_trig_id : Nat
  ttag_shwr_seconds : Nat
  ttag_shwr_nanosec : Nat
  rd : Nat
deriving DecidableEq

/-- Observable steps of the drain, in program order.  `copyChannel ch off`
is the `memcpy` of `SHWR_NSAMPLES` words of channel `ch` starting at word
offset `off` of its ring-buffer window; bank 0 is the trigger block, bank
1 the time-tagging block. -/
inductive DrainAction where
  | readReg (bank addr : Nat)
  | copyChannel (ch off : Nat)
  | writeReg (bank addr val : Nat)
  | incCounter
deriving DecidableEq

def DrainAction.isRegWrite : DrainAction → Bool
  | .writeReg _ _ _ => true
  | _ => false

/-- `read_evt_read` (adc_check_ramp.c:417-461): on a wakeup with the
buffer-full flag, extract the ready slot `rd` from the status register,
copy each channel's slot, snapshot the header from the current registers,
write `rd` to the release (control) register, increment the id counter;
otherwise return the timed-out result with nothing changed.  The returned
header is `none` exactly on the timed-out (-1) path. -/
def read_evt_read (gl : ReadGlobal) (hw : HwRegs) (gotEvent : Bool) :
    Option EvtHeader × ReadGlobal × List DrainAction :=
  if gotEvent then
    let rd := hw.regs SHWR_BUF_STATUS_ADDR >>> SHWR_BUF_RNUM_SHIFT &&& SHWR_BUF_RNUM_MASK
    let offset := rd * SHWR_NSAMPLES
    let sh : EvtHeader :=
      { id := gl.id_counter
        shwr_buf_status := hw.regs SHWR_BUF_STATUS_ADDR
        shwr_buf_start := hw.regs SHWR_BUF_START_ADDR
        shwr_buf_trig_id := hw.regs SHWR_BUF_TRIG_ID_ADDR
        ttag_shwr_seconds := hw.tt_regs TTAG_SHWR_SECONDS_ADDR
        ttag_shwr_nanosec := hw.tt_regs TTAG_SHWR_NANOSEC_ADDR
        rd := rd }
    (some sh, { id_counter := gl.id_counter + 1 },
     [.readReg 0 SHWR_BUF_STATUS_ADDR,
      .copyChannel 0 offset, .copyChannel 1 offset, .copyChannel 2 offset,
      .copyChannel 3 offset, .copyChannel 4 offset,
      .readReg 0 SHWR_BUF_STATUS_ADDR, .readReg 0 SHWR_BUF_START_ADDR,
      .readReg 0 SHWR_BUF_TRIG_ID_ADDR,
      .readReg 1 TTAG_SHWR_SECONDS_ADDR, .readReg 1 TTAG_SHWR_NANOSEC_ADDR,
      .writeReg 0 SHWR_BUF_CONTROL_ADDR rd, .incCounter])
  else (none, gl, [])

/-- C4: on the success path the drain performs, in exactly this order, the
rd extraction read, the five per-channel slot copies, the header snapshot
reads, the single release write, and the id increment; the release write
is the last register write (and the last action before the increment);
the returned header snapshots the registers with the old id; on the
no-wakeup path the result is the timed-out one with no state change and
no register write at all. -/
theorem read_evt_read_order (gl : ReadGlobal) (hw : HwRegs) (gotEvent : Bool)
    (hevt : gotEvent = true) :
    (read_evt_read gl hw gotEvent).2.2
      = [.readReg 0 SHWR_BUF_STATUS_ADDR,
         .copyChannel 0 ((hw.regs SHWR_BUF_STATUS_ADDR >>> SHWR_BUF_RNUM_SHIFT
            &&& SHWR_BUF_RNUM_MASK) * SHWR_NSAMPLES),
         .copyChannel 1 ((hw.regs SHWR_BUF_STATUS_ADDR >>> SHWR_BUF_RNUM_SHIFT
            &&& SHWR_BUF_RNUM_MASK) * SHWR_NSAMPLES),
         .copyChannel 2 ((hw.regs SHWR_BUF_STATUS_ADDR >>> SHWR_BUF_RNUM_SHIFT
            &&& SHWR_BUF_RNUM_MASK) * SHWR_NSAMPLES),
         .copyChannel 3 ((hw.regs SHWR_BUF_STATUS_ADDR >>> SHWR_BUF_RNUM_SHIFT
            &&& SHWR_BUF_RNUM_MASK) * SHWR_NSAMPLES),
         .copyChannel 4 ((hw.regs SHWR_BUF_STATUS_ADDR >>> SHWR_BUF_RNUM_SHIFT
            &&& SHWR_BUF_RNUM_MASK) * SHWR_NSAMPLES),
         .readReg 0 SHWR_BUF_STATUS_ADDR, .readReg 0 SHWR_BUF_START_ADDR,
         .readReg 0 SHWR_BUF_TRIG_ID_ADDR,
         .readReg 1 TTAG_SHWR_SECONDS_ADDR, .readReg 1 TTAG_SHWR_NANOSEC_ADDR,
         .writeReg 0 SHWR_BUF_CONTROL_ADDR
           (hw.regs SHWR_BUF_STATUS_ADDR >>> SHWR_BUF_RNUM_SHIFT
             &&& SHWR_BUF_RNUM_MASK),
         .incCounter] ∧
    ((read_evt_read gl hw gotEvent).2.2.filter DrainAction.isRegWrite
      = [.writeReg 0 SHWR_BUF_CONTROL_ADDR
           (hw.regs SHWR_BUF_STATUS_ADDR >>> SHWR_BUF_RNUM_SHIFT
             &&& SHWR_BUF_RNUM_MASK)]) ∧
    (read_evt_read gl hw gotEvent).1
      = some { id := gl.id_counter
               shwr_buf_status := hw.regs SHWR_BUF_STATUS_ADDR
               shwr_buf_start := hw.regs SHWR_BUF_START_ADDR
               shwr_buf_trig_id := hw.regs SHWR_BUF_TRIG_ID_ADDR
               ttag_shwr_seconds := hw.tt_regs TTAG_SHWR_SECONDS_ADDR
               ttag_shwr_nanosec := hw.tt_regs TTAG_SHWR_NANOSEC_ADDR
               rd := hw.regs SHWR_BUF_STATUS_ADDR >>> SHWR_BUF_RNUM_SHIFT
                 &&& SHWR_BUF_RNUM_MASK } ∧
    (read_evt_read gl hw gotEvent).2.1.id_counter = gl.id_counter + 1 ∧
    ((read_evt_read gl hw false).1 = none ∧
     (read_evt_read gl hw false).2.1 = gl ∧
     (read_evt_read gl hw false).2.2 = []) := by
  subst hevt
  refine ⟨rfl, rfl, rfl, rfl, rfl, rfl, rfl⟩

/-- Witness for C4 at concrete register contents. -/
theorem read_evt_read_order_witness :
    true = true ∧
    ((read_evt_read ⟨7⟩ ⟨fun _ => 5, fun _ => 9⟩ true).2.2
      = [.readReg 0 SHWR_BUF_STATUS_ADDR,
         .copyChannel 0 (((5 : Nat) >>> SHWR_BUF_RNUM_SHIFT
            &&& SHWR_BUF_RNUM_MASK) * SHWR_NSAMPLES),
         .copyChannel 1 (((5 : Nat) >>> SHWR_BUF_RNUM_SHIFT
            &&& SHWR_BUF_RNUM_MASK) * SHWR_NSAMPLES),
         .copyChannel 2 (((5 : Nat) >>> SHWR_BUF_RNUM_SHIFT
            &&& SHWR_BUF_RNUM_MASK) * SHWR_NSAMPLES),
         .copyChannel 3 (((5 : Nat) >>> SHWR_BUF_RNUM_SHIFT
            &&& SHWR_BUF_RNUM_MASK) * SHWR_NSAMPLES),
         .copyChannel 4 (((5 : Nat) >>> SHWR_BUF_RNUM_SHIFT
            &&& SHWR_BUF_RNUM_MASK) * SHWR_NSAMPLES),
         .readReg 0 SHWR_BUF_STATUS_ADDR, .readReg 0 SHWR_BUF_START_ADDR,
         .readReg 0 SHWR_BUF_TRIG_ID_ADDR,
         .readReg 1 TTAG_SHWR_SECONDS_ADDR, .readReg 1 TTAG_SHWR_NANOSEC_ADDR,
         .writeReg 0 SHWR_BUF_CONTROL_ADDR
           ((5 : Nat) >>> SHWR_BUF_RNUM_SHIFT &&& SHWR_BUF_RNUM_MASK),
         .incCounter] ∧
     ((read_evt_read ⟨7⟩ ⟨fun _ => 5, fun _ => 9⟩ true).2.2.filter
        DrainAction.isRegWrite
      = [.writeReg 0 SHWR_BUF_CONTROL_ADDR
           ((5 : Nat) >>> SHWR_BUF_RNUM_SHIFT &&& SHWR_BUF_RNUM_MASK)]) ∧
     (read_evt_read ⟨7⟩ ⟨fun _ => 5, fun _ => 9⟩ true).1
      = some { id := 7, shwr_buf_status := 5, shwr_buf_start := 5,
               shwr_buf_trig_id := 5, ttag_shwr_seconds := 9,
               ttag_shwr_nanosec := 9,
               rd := (5 : Nat) >>> SHWR_BUF_RNUM_SHIFT &&& SHWR_BUF_RNUM_MASK } ∧
     (read_evt_read ⟨7⟩ ⟨fun _ => 5, fun _ => 9⟩ true).2.1.id_counter = 7 + 1 ∧
     ((read_evt_read ⟨7⟩ ⟨fun _ => 5, fun _ => 9⟩ false).1 = none ∧
      (read_evt_read ⟨7⟩ ⟨fun _ => 5, fun _ => 9⟩ false).2.1 = ⟨7⟩ ∧
      (read_evt_read ⟨7⟩ ⟨fun _ => 5, fun _ => 9⟩ false).2.2 = [])) :=
  ⟨rfl, read_evt_read_order ⟨7⟩ ⟨fun _ => 5, fun _ => 9⟩ true rfl⟩

/-- Modelled from the spec: one ring-buffer slot holds one event's
samples, i.e. `SHWR_NSAMPLES` packed 32-bit words per channel, and the
mapped window covers `slots` such slots (`SHWR_MEM_DEPTH * SHWR_MEM_NBUF`
bytes; the constants live in the missing hardware header, so the window
is expressed in words as `slots * SHWR_NSAMPLES`). -/
def slotWindowWords (slots : Nat) : Nat := slots * SHWR_NSAMPLES

/-- C6: for every valid slot index `rd < slots`, each per-channel copy
performed by the drain reads only word offsets inside that channel's
mapped window, and, provided the header's start offset is below 2048,
every staging-buffer word index read by `convert_databuf` for raw channel
`c` stays inside channel `c`'s own range of the `5*2048`-word staging
buffer (in particular inside the buffer). -/
theorem drain_and_convert_in_bounds (gl : ReadGlobal) (hw : HwRegs)
    (slots : Nat)
    (hrd : hw.regs SHWR_BUF_STATUS_ADDR >>> SHWR_BUF_RNUM_SHIFT
        &&& SHWR_BUF_RNUM_MASK < slots)
    (s : Nat) (hs : s < 2048) (c : Nat) (hc : c < 5) (i : Nat) (hi : i < 2048) :
    (∀ ch off, DrainAction.copyChannel ch off ∈ (read_evt_read gl hw true).2.2 →
      ∀ k, k < SHWR_NSAMPLES → off + k < slotWindowWords slots) ∧
    c * 2048 ≤ convert_idx c s i ∧ convert_idx c s i < (c + 1) * 2048 ∧
    convert_idx c s i < 5 * 2048 := by
  have hidx := convert_idx_eq c s hs i
  have hmod : (s + i) % 2048 < 2048 := Nat.mod_lt _ (by omega)
  refine ⟨?_, by omega, by omega, by omega⟩
  intro ch off hmem k hk
  have hoff : off = (hw.regs SHWR_BUF_STATUS_ADDR >>> SHWR_BUF_RNUM_SHIFT
      &&& SHWR_BUF_RNUM_MASK) * SHWR_NSAMPLES := by
    simp only [read_evt_read, if_pos, List.mem_cons, List.not_mem_nil,
      or_false] at hmem
    rcases hmem with h | h | h | h | h | h | h | h | h | h | h | h | h <;>
      first
        | (injection h with h1 h2; exact h2)
        | (exact h.2)
        | (cases h; rfl)
        | cases h
  subst hoff
  simp only [SHWR_NSAMPLES, slotWindowWords] at *
  have : (hw.regs SHWR_BUF_STATUS_ADDR >>> SHWR_BUF_RNUM_SHIFT
      &&& SHWR_BUF_RNUM_MASK) + 1 ≤ slots := hrd
  calc (hw.regs SHWR_BUF_STATUS_ADDR >>> SHWR_BUF_RNUM_SHIFT
          &&& SHWR_BUF_RNUM_MASK) * 2048 + k
      < ((hw.regs SHWR_BUF_STATUS_ADDR >>> SHWR_BUF_RNUM_SHIFT
          &&& SHWR_BUF_RNUM_MASK) + 1) * 2048 := by omega
    _ ≤ slots * 2048 := Nat.mul_le_mul_right 2048 this

/-- Witness for C6 at concrete register contents, slot count 4, and a
concrete start offset, channel and sample index. -/
theorem drain_and_convert_in_bounds_witness :
    ((5 : Nat) >>> SHWR_BUF_RNUM_SHIFT &&& SHWR_BUF_RNUM_MASK < 4) ∧
    (5 < 2048 ∧ 2 < 5 ∧ 7 < 2048) ∧
    ((∀ ch off, DrainAction.copyChannel ch off
        ∈ (read_evt_read ⟨0⟩ ⟨fun _ => 5, fun _ => 9⟩ true).2.2 →
        ∀ k, k < SHWR_NSAMPLES → off + k < slotWindowWords 4) ∧
     2 * 2048 ≤ convert_idx 2 5 7 ∧ convert_idx 2 5 7 < (2 + 1) * 2048 ∧
     convert_idx 2 5 7 < 5 * 2048) :=
  ⟨by decide, ⟨by decide, by decide, by decide⟩,
    drain_and_convert_in_bounds ⟨0⟩ ⟨fun _ => 5, fun _ => 9⟩ 4 (by decide)
      5 (by decide) 2 (by decide) 7 (by decide)⟩

/-! ## Mapping lifecycle and exit-time cleanup (adc_check_ramp.c:312-411,
519-536; netscope.c:209-308, 150-181, 356-412)

`read_evt_init` maps, in order, the three register blocks and the five
shower-buffer regions (regions `0..7` below); each mapping can fail, which
exits the process with a region-specific code.  In adc_check_ramp's
`main`, `atexit(read_evt_end)` is registered only *after* `read_evt_init`
returns (lines 526-527), so an exit inside `read_evt_init` runs no unmap;
once registered, `read_evt_end` unmaps every region whose pointer is
non-NULL on every exit path.  netscope calls `read_evt_end` only at the
normal end of `main` (line 407); the `exit(1)` calls inside `senddata`
(lines 163, 179) terminate without it (netscope registers no atexit
handler). -/

inductive SysEvent where
  | mmapOk (r : Nat)
  | munmap (r : Nat)
deriving DecidableEq

/-- Exit codes of the mapping failures (adc_check_ramp.c:98-101):
regions 0,1,2 are regs/tt_regs/tstctl_regs, 3..7 the shower buffers. -/
def mapExitCode (r : Nat) : Nat :=
  if r = 0 then 61 else if r = 1 then 62 else if r = 2 then 63 else 64

/-- `read_evt_init` (adc_check_ramp.c:312-394): map regions `0..7` in
order; the first failure exits with that region's code, leaving the
regions mapped so far.  `mok r` says whether mapping region `r` succeeds. -/
def read_evt_init (mok : Nat → Bool) : Except (Nat × List Nat) (List Nat) :=
  go [0, 1, 2, 3, 4, 5, 6, 7] []
where
  go : List Nat → List Nat → Except (Nat × List Nat) (List Nat)
    | [], mapped => .ok mapped
    | r :: rest, mapped =>
      if mok r then go rest (mapped ++ [r])
      else .error (mapExitCode r, mapped)

/-- `read_evt_end` (adc_check_ramp.c:396-411): unmap every region whose
pointer was set (exactly the successfully mapped ones). -/
def read_evt_end (mapped : List Nat) : List SysEvent :=
  mapped.map SysEvent.munmap

/-- The mapping-relevant lifecycle of adc_check_ramp's `main`
(lines 519-553): run `read_evt_init`; a failure inside it exits before
`atexit(read_evt_end)` is registered, so only the mmap events appear; on
success the handler is registered and runs when the process later
terminates (with whatever code `restCode` the remaining `main` produces,
normal result or fatal exit). -/
def adc_check_lifecycle (mok : Nat → Bool) (restCode : Nat) :
    Nat × List SysEvent :=
  match read_evt_init mok with
  | .error (code, mapped) => (code, mapped.map SysEvent.mmapOk)
  | .ok mapped => (restCode, mapped.map SysEvent.mmapOk ++ read_evt_end mapped)

/-- The mapping-relevant lifecycle of netscope's `main` (lines 356-412):
no atexit handler exists; `read_evt_end` runs only when the acquisition
loop ends normally, not when `senddata` exits the process (lines 163,
179).  `sendFails` selects the fatal-send path. -/
def netscope_lifecycle (mok : Nat → Bool) (sendFails : Bool) :
    Nat × List SysEvent :=
  match read_evt_init mok with
  | .error (_, mapped) => (1, mapped.map SysEvent.mmapOk)
  | .ok mapped =>
      if sendFails then (1, mapped.map SysEvent.mmapOk)
      else (0, mapped.map SysEvent.mmapOk ++ read_evt_end mapped)

/-- Counterexample to C8: if mapping region 0 succeeds and mapping region
1 fails, adc_check_ramp exits (code `EXIT_EVTMAPTIME` = 62) before
`atexit(read_evt_end)` is registered: region 0 was mapped but no unmap
runs on that exit path. -/
theorem cleanup_skipped_cex :
    SysEvent.mmapOk 0 ∈ (adc_check_lifecycle (fun r => r = 0) 0).2 ∧
    SysEvent.munmap 0 ∉ (adc_check_lifecycle (fun r => r = 0) 0).2 ∧
    (adc_check_lifecycle (fun r => r = 0) 0).1 = 62 ∧
    SysEvent.mmapOk 0 ∈ (netscope_lifecycle (fun _ => true) true).2 ∧
    SysEvent.munmap 0 ∉ (netscope_lifecycle (fun _ => true) true).2 := by
  refine ⟨?_, ?_, ?_, ?_, ?_⟩ <;> decide

/-- C8 amended: once `read_evt_init` has completed, `read_evt_end` is
registered via `atexit` and every later exit path (normal return,
self-test completion, or fatal error) unmaps every mapped region; but a
mapping failure inside `read_evt_init` itself exits before the handler is
registered and unmaps nothing, and in the streaming tool `read_evt_end`
runs only on the normal control-stop path, not on `senddata`'s fatal
exits. -/
theorem cleanup_amended (mok : Nat → Bool) (restCode : Nat)
    (hok : ∀ r, r < 8 → mok r = true) :
    (∀ r, SysEvent.mmapOk r ∈ (adc_check_lifecycle mok restCode).2 →
      SysEvent.munmap r ∈ (adc_check_lifecycle mok restCode).2) ∧
    (adc_check_lifecycle mok restCode).1 = restCode ∧
    (∀ mok2 : Nat → Bool, ∀ code mapped,
      read_evt_init mok2 = .error (code, mapped) →
      ∀ r, SysEvent.munmap r ∉ (adc_check_lifecycle mok2 restCode).2) := by
  have hinit : read_evt_init mok = .ok [0, 1, 2, 3, 4, 5, 6, 7] := by
    have h0 := hok 0 (by omega)
    have h1 := hok 1 (by omega)
    have h2 := hok 2 (by omega)
    have h3 := hok 3 (by omega)
    have h4 := hok 4 (by omega)
    have h5 := hok 5 (by omega)
    have h6 := hok 6 (by omega)
    have h7 := hok 7 (by omega)
    simp [read_evt_init, read_evt_init.go, h0, h1, h2, h3, h4, h5, h6, h7]
  refine ⟨?_, ?_, ?_⟩
  · intro r hr
    simp only [adc_check_lifecycle, hinit] at hr ⊢
    rw [List.mem_append] at hr
    rcases hr with hr | hr
    · rw [List.mem_map] at hr
      obtain ⟨x, hx, hxe⟩ := hr
      rw [List.mem_append]
      right
      rw [read_evt_end, List.mem_map]
      exact ⟨x, hx, by injection hxe with h; rw [h]⟩
    · rw [read_evt_end, List.mem_map] at hr
      obtain ⟨x, _, hxe⟩ := hr
      cases hxe
  · simp [adc_check_lifecycle, hinit]
  · intro mok2 code mapped herr r hmem
    simp only [adc_check_lifecycle, herr] at hmem
    rw [List.mem_map] at hmem
    obtain ⟨x, _, hxe⟩ := hmem
    cases hxe

/-- Witness for C8's amended theorem with every mapping succeeding. -/
theorem cleanup_amended_witness :
    (∀ r, r < 8 → (fun _ => true : Nat → Bool) r = true) ∧
    ((∀ r, SysEvent.mmapOk r ∈ (adc_check_lifecycle (fun _ => true) 0).2 →
       SysEvent.munmap r ∈ (adc_check_lifecycle (fun _ => true) 0).2) ∧
     (adc_check_lifecycle (fun _ => true) 0).1 = 0 ∧
     (∀ mok2 : Nat → Bool, ∀ code mapped,
       read_evt_init mok2 = .error (code, mapped) →
       ∀ r, SysEvent.munmap r ∉ (adc_check_lifecycle mok2 0).2)) :=
  ⟨fun _ _ => rfl, cleanup_amended (fun _ => true) 0 (fun _ _ => rfl)⟩

/-! ## Streaming protocol: `senddata` (netscope.c:150-181)

`workbuf` is `WBUFSIZE = sizeof(frag_header) + 4*2048*5 = 40968` bytes;
the payload (`databuf`) starts at byte 8.  It is modelled as a function
from byte offset to byte value.  The fragment loop walks `start` from
`workbuf`, writes a `frag_header` in place at `start` (on the second and
later iterations this overwrites payload bytes that have already been
sent), and sends `[start, end)` where `end = min(start + PACKETSIZE,
endbuf)`; it continues while the previous `end` was short of `endbuf`
with `start = end - sizeof(frag_header)`.  `fh->start` is `start -
workbuf` and `fh->end` is `end - databuf`; both coincide with the
payload-relative offsets of the fragment's data bytes.  The
`frag_header` struct `{uint32 id; uint16 start; uint16 end}` is laid out
little-endian (ARM). -/

def PACKETSIZE : Nat := 1400
def FRAG_HDR_SIZE : Nat := 8
def NS_DATASIZE : Nat := 4 * SHWR_NSAMPLES * SHWR_RAW_NCH_MAX
def WBUFSIZE : Nat := FRAG_HDR_SIZE + NS_DATASIZE

/-- Byte `j` of the in-memory `struct frag_header` with the given field
values (little-endian 32-bit id, 16-bit start, 16-bit end). -/
def hdrByte (id st en j : Nat) : Nat :=
  if j < 4 then id >>> (8 * j) &&& 0xff
  else if j < 6 then st >>> (8 * (j - 4)) &&& 0xff
  else en >>> (8 * (j - 6)) &&& 0xff

/-- Write a `frag_header` into the buffer at byte offset `pos`. -/
def writeHdr (buf : Nat → Nat) (pos id st en : Nat) : Nat → Nat :=
  fun j => if pos ≤ j ∧ j < pos + FRAG_HDR_SIZE then hdrByte id st en (j - pos)
           else buf j

/-- The bytes of `buf` at offsets `[a, b)`. -/
def sliceBytes (buf : Nat → Nat) (a b : Nat) : List Nat :=
  (List.range (b - a)).map fun k => buf (a + k)

/-- One sent fragment: the `frag_header` field values and the payload
bytes that followed the header in the datagram. -/
structure Frag where
  id : Nat
  fstart : Nat
  fend : Nat
  payload : List Nat
deriving DecidableEq

/-- The fragment loop of `senddata` (netscope.c:165-180), from the
workbuf offset `start` of the next fragment header, with an explicit
iteration budget (first argument).  Returns the sent fragments in order
together with the final buffer contents.  Each iteration advances `start`
by `PACKETSIZE - FRAG_HDR_SIZE > 0` and the loop ends once
`start + PACKETSIZE` reaches `WBUFSIZE`, so a budget above `WBUFSIZE`
is never exhausted (`sendloop` below supplies one). -/
def sendloopF : Nat → Nat → (Nat → Nat) → Nat → List Frag × (Nat → Nat)
  | 0, _, buf, _ => ([], buf)
  | n + 1, id, buf, start =>
    if start + PACKETSIZE < WBUFSIZE then
      let buf1 := writeHdr buf start id start (start + PACKETSIZE - FRAG_HDR_SIZE)
      let rest := sendloopF n id buf1 (start + PACKETSIZE - FRAG_HDR_SIZE)
      (⟨id, start, start + PACKETSIZE - FRAG_HDR_SIZE,
         sliceBytes buf1 (start + FRAG_HDR_SIZE) (start + PACKETSIZE)⟩ :: rest.1,
       rest.2)
    else
      let buf1 := writeHdr buf start id start (WBUFSIZE - FRAG_HDR_SIZE)
      ([⟨id, start, WBUFSIZE - FRAG_HDR_SIZE,
          sliceBytes buf1 (start + FRAG_HDR_SIZE) WBUFSIZE⟩], buf1)

/-- The fragment loop of `senddata` (netscope.c:165-180). -/
def sendloop (id : Nat) (buf : Nat → Nat) (start : Nat) :
    List Frag × (Nat → Nat) :=
  sendloopF (WBUFSIZE + 1) id buf start

/-- State of the streaming tool relevant to `senddata`: the stored event
header `sh` and `workbuf`. -/
structure ScopeState where
  sh : EvtHeader
  workbuf : Nat → Nat

/-- A datagram sent by `senddata`: the tagged header packet or a
fragment. -/
inductive Packet where
  | hdr (h : EvtHeader)
  | frag (f : Frag)

def Packet.pid : Packet → Nat
  | .hdr h => h.id
  | .frag f => f.id

/-- `senddata` (netscope.c:150-181): capture `id = sh.id`, tag the stored
header id with the top bit, send the header packet, then run the fragment
loop from `start = workbuf`.  Returns the packets in send order and the
updated state (the tagged `sh.id` and the mutated `workbuf` persist in
the globals). -/
def senddata (st : ScopeState) : List Packet × ScopeState :=
  let id := st.sh.id
  let sh1 := { st.sh with id := st.sh.id ||| 0x80000000 }
  let res := sendloop id st.workbuf 0
  (Packet.hdr sh1 :: res.1.map Packet.frag, ⟨sh1, res.2⟩)

/-- One iteration of netscope's acquisition loop body (netscope.c:398-405):
`read_evt_read` may or may not produce an event (its return value is
discarded), then `senddata` is invoked unconditionally on the globals. -/
def netscope_loop_iter (st : ScopeState)
    (readEvt : Option (EvtHeader × (Nat → Nat))) : List Packet × ScopeState :=
  let st1 := match readEvt with
    | some (h, data) =>
        { sh := h,
          workbuf := fun j =>
            if FRAG_HDR_SIZE ≤ j ∧ j < WBUFSIZE then data (j - FRAG_HDR_SIZE)
            else st.workbuf j }
    | none => st
  senddata st1

lemma sliceBytes_congr (f g : Nat → Nat) (a b : Nat)
    (h : ∀ j, a ≤ j → j < b → f j = g j) :
    sliceBytes f a b = sliceBytes g a b := by
  unfold sliceBytes
  apply List.map_congr_left
  intro k hk
  rw [List.mem_range] at hk
  exact h (a + k) (by omega) (by omega)

lemma sliceBytes_append (f : Nat → Nat) (a b c : Nat) (hab : a ≤ b) (hbc : b ≤ c) :
    sliceBytes f a b ++ sliceBytes f b c = sliceBytes f a c := by
  unfold sliceBytes
  rw [show c - a = (b - a) + (c - b) from by omega, List.range_add,
    List.map_append, List.map_map]
  congr 1
  apply List.map_congr_left
  intro k _
  simp only [Function.comp_apply]
  congr 1
  omega

lemma sliceBytes_length (f : Nat → Nat) (a b : Nat) :
    (sliceBytes f a b).length = b - a := by
  simp [sliceBytes]

lemma sendloopF_rec (n id : Nat) (buf : Nat → Nat) (start : Nat)
    (h : start + PACKETSIZE < WBUFSIZE) :
    sendloopF (n + 1) id buf start =
      ((⟨id, start, start + PACKETSIZE - FRAG_HDR_SIZE,
        sliceBytes (writeHdr buf start id start (start + PACKETSIZE - FRAG_HDR_SIZE))
          (start + FRAG_HDR_SIZE) (start + PACKETSIZE)⟩ : Frag)
        :: (sendloopF n id (writeHdr buf start id start (start + PACKETSIZE - FRAG_HDR_SIZE))
              (start + PACKETSIZE - FRAG_HDR_SIZE)).1,
       (sendloopF n id (writeHdr buf start id start (start + PACKETSIZE - FRAG_HDR_SIZE))
          (start + PACKETSIZE - FRAG_HDR_SIZE)).2) := by
  rw [sendloopF, if_pos h]

lemma sendloopF_base (n id : Nat) (buf : Nat → Nat) (start : Nat)
    (h : ¬ start + PACKETSIZE < WBUFSIZE) :
    sendloopF (n + 1) id buf start =
      ([⟨id, start, WBUFSIZE - FRAG_HDR_SIZE,
        sliceBytes (writeHdr buf start id start (WBUFSIZE - FRAG_HDR_SIZE))
          (start + FRAG_HDR_SIZE) WBUFSIZE⟩],
       writeHdr buf start id start (WBUFSIZE - FRAG_HDR_SIZE)) := by
  rw [sendloopF, if_neg h]

lemma writeHdr_untouched (buf : Nat → Nat) (pos id st en j : Nat)
    (h : pos + FRAG_HDR_SIZE ≤ j) :
    writeHdr buf pos id st en j = buf j := by
  unfold writeHdr
  rw [if_neg]
  intro hc
  omega

/-- Core invariant of the fragment loop: starting at workbuf offset
`start` with a buffer that still agrees with the entry-time buffer `buf0`
from offset `start + 8` on, the loop emits nonempty fragments with
strictly increasing `fstart` beginning at `start`, each fragment's
payload equalling the entry-time payload bytes at payload-relative
offsets `[fstart, fend)`, their concatenation recovering the entry-time
bytes `[start+8, WBUFSIZE)`, and the final fragment ending at
`WBUFSIZE - 8 = 40960`. -/
lemma sendloopF_spec (id : Nat) (buf0 : Nat → Nat) : ∀ (n start : Nat) (buf : Nat → Nat),
    WBUFSIZE - start < n →
    start + FRAG_HDR_SIZE ≤ WBUFSIZE →
    (∀ j, start + FRAG_HDR_SIZE ≤ j → buf j = buf0 j) →
    (sendloopF n id buf start).1 ≠ [] ∧
    ((sendloopF n id buf start).1.map Frag.fstart).head? = some start ∧
    List.Chain' (· < ·) ((sendloopF n id buf start).1.map Frag.fstart) ∧
    (∀ f ∈ (sendloopF n id buf start).1, f.id = id ∧
      f.payload = sliceBytes buf0 (FRAG_HDR_SIZE + f.fstart) (FRAG_HDR_SIZE + f.fend)) ∧
    ((sendloopF n id buf start).1.map Frag.payload).flatten
      = sliceBytes buf0 (start + FRAG_HDR_SIZE) WBUFSIZE ∧
    ((sendloopF n id buf start).1.map Frag.fend).getLast?
      = some (WBUFSIZE - FRAG_HDR_SIZE) := by
  intro n
  induction n with
  | zero => intro start buf hn; omega
  | succ n ih =>
      intro start buf hn hle hagree
      by_cases h : start + PACKETSIZE < WBUFSIZE
      · rw [sendloopF_rec n id buf start h]
        have hsz : (8 : Nat) = FRAG_HDR_SIZE := rfl
        have hps : FRAG_HDR_SIZE < PACKETSIZE := by decide
        have hagree1 : ∀ j, (start + PACKETSIZE - FRAG_HDR_SIZE) + FRAG_HDR_SIZE ≤ j →
            writeHdr buf start id start (start + PACKETSIZE - FRAG_HDR_SIZE) j = buf0 j := by
          intro j hj
          rw [writeHdr_untouched buf start id start _ j (by
            simp only [FRAG_HDR_SIZE] at *
            omega)]
          exact hagree j (by
            simp only [FRAG_HDR_SIZE] at *
            omega)
        have hrec := ih (start + PACKETSIZE - FRAG_HDR_SIZE)
          (writeHdr buf start id start (start + PACKETSIZE - FRAG_HDR_SIZE))
          (by
            simp only [FRAG_HDR_SIZE, PACKETSIZE] at *
            omega)
          (by
            simp only [FRAG_HDR_SIZE, PACKETSIZE] at *
            omega)
          hagree1
        obtain ⟨hne, hhead, hchain, hfrag, hjoin, hlast⟩ := hrec
        have hpay : sliceBytes
            (writeHdr buf start id start (start + PACKETSIZE - FRAG_HDR_SIZE))
            (start + FRAG_HDR_SIZE) (start + PACKETSIZE)
            = sliceBytes buf0 (start + FRAG_HDR_SIZE) (start + PACKETSIZE) := by
          apply sliceBytes_congr
          intro j hj hj2
          rw [writeHdr_untouched buf start id start _ j hj]
          exact hagree j hj
        refine ⟨by simp, by simp, ?_, ?_, ?_, ?_⟩
        · rw [List.map_cons, List.chain'_cons']
          refine ⟨?_, hchain⟩
          intro y hy
          rw [hhead] at hy
          simp only [Option.mem_some_iff] at hy
          subst hy
          simp only [FRAG_HDR_SIZE, PACKETSIZE]
          omega
        · intro f hf
          rcases List.mem_cons.mp hf with rfl | hf
          · refine ⟨rfl, ?_⟩
            rw [hpay]
            have e1 : FRAG_HDR_SIZE + start = start + FRAG_HDR_SIZE := by omega
            have e2 : FRAG_HDR_SIZE + (start + PACKETSIZE - FRAG_HDR_SIZE)
                = start + PACKETSIZE := by
              simp only [FRAG_HDR_SIZE, PACKETSIZE]
              omega
            show sliceBytes buf0 (start + FRAG_HDR_SIZE) (start + PACKETSIZE)
              = sliceBytes buf0 (FRAG_HDR_SIZE + start)
                  (FRAG_HDR_SIZE + (start + PACKETSIZE - FRAG_HDR_SIZE))
            rw [e1, e2]
          · exact hfrag f hf
        · rw [List.map_cons, List.flatten_cons, hjoin, hpay]
          apply sliceBytes_append
          · simp only [FRAG_HDR_SIZE, PACKETSIZE]; omega
          · simp only [FRAG_HDR_SIZE, PACKETSIZE, WBUFSIZE, NS_DATASIZE,
              SHWR_NSAMPLES, SHWR_RAW_NCH_MAX] at *
            omega
        · obtain ⟨g, gs, hgs⟩ := List.exists_cons_of_ne_nil hne
          rw [hgs, List.map_cons, List.map_cons, List.getLast?_cons_cons]
          rw [hgs, List.map_cons] at hlast
          exact hlast
      · rw [sendloopF_base n id buf start h]
        have hpay : sliceBytes (writeHdr buf start id start (WBUFSIZE - FRAG_HDR_SIZE))
            (start + FRAG_HDR_SIZE) WBUFSIZE
            = sliceBytes buf0 (start + FRAG_HDR_SIZE) WBUFSIZE := by
          apply sliceBytes_congr
          intro j hj hj2
          rw [writeHdr_untouched buf start id start _ j hj]
          exact hagree j hj
        refine ⟨by simp, by simp, by simp, ?_, ?_, by simp⟩
        · intro f hf
          rcases List.mem_cons.mp hf with rfl | hf
          · refine ⟨rfl, ?_⟩
            rw [hpay]
            have e1 : FRAG_HDR_SIZE + start = start + FRAG_HDR_SIZE := by omega
            have e2 : FRAG_HDR_SIZE + (WBUFSIZE - FRAG_HDR_SIZE) = WBUFSIZE := by
              simp only [FRAG_HDR_SIZE, WBUFSIZE, NS_DATASIZE, SHWR_NSAMPLES,
                SHWR_RAW_NCH_MAX]
            show sliceBytes buf0 (start + FRAG_HDR_SIZE) WBUFSIZE
              = sliceBytes buf0 (FRAG_HDR_SIZE + start)
                  (FRAG_HDR_SIZE + (WBUFSIZE - FRAG_HDR_SIZE))
            rw [e1, e2]
          · cases hf
        · simp only [List.map_cons, List.map_nil, List.flatten_cons, List.flatten_nil,
            List.append_nil]
          exact hpay

/-- C3: `senddata` sends the tagged header packet first, then fragments
in strictly increasing start-offset order; each fragment's header carries
the payload-relative start and end byte offsets of its own payload bytes
(the 8 header bytes are excluded from offset accounting); concatenating
the fragment payloads in send order reproduces byte-for-byte the
40960-byte payload as it was when `senddata` was entered, even though
later fragment headers are written in place over already-sent payload
bytes; and the last fragment's end offset is the payload length 40960. -/
theorem senddata_fragmentation (st : ScopeState) :
    (senddata st).1 = Packet.hdr { st.sh with id := st.sh.id ||| 0x80000000 }
        :: (sendloop st.sh.id st.workbuf 0).1.map Packet.frag ∧
    (sendloop st.sh.id st.workbuf 0).1 ≠ [] ∧
    List.Chain' (· < ·) ((sendloop st.sh.id st.workbuf 0).1.map Frag.fstart) ∧
    (∀ f ∈ (sendloop st.sh.id st.workbuf 0).1,
      f.id = st.sh.id ∧
      f.payload
        = sliceBytes st.workbuf (FRAG_HDR_SIZE + f.fstart) (FRAG_HDR_SIZE + f.fend)) ∧
    ((sendloop st.sh.id st.workbuf 0).1.map Frag.payload).flatten
      = sliceBytes st.workbuf FRAG_HDR_SIZE WBUFSIZE ∧
    (sliceBytes st.workbuf FRAG_HDR_SIZE WBUFSIZE).length = NS_DATASIZE ∧
    ((sendloop st.sh.id st.workbuf 0).1.map Frag.fend).getLast? = some NS_DATASIZE := by
  have hND : WBUFSIZE - FRAG_HDR_SIZE = NS_DATASIZE := by
    simp only [WBUFSIZE, FRAG_HDR_SIZE, NS_DATASIZE, SHWR_NSAMPLES, SHWR_RAW_NCH_MAX]
  have hspec := sendloopF_spec st.sh.id st.workbuf (WBUFSIZE + 1) 0 st.workbuf
    (by omega)
    (by
      simp only [WBUFSIZE, FRAG_HDR_SIZE, NS_DATASIZE, SHWR_NSAMPLES, SHWR_RAW_NCH_MAX]
      omega)
    (fun _ _ => rfl)
  obtain ⟨hne, _, hchain, hfrag, hjoin, hlast⟩ := hspec
  refine ⟨rfl, hne, hchain, hfrag, ?_, ?_, ?_⟩
  · simpa using hjoin
  · rw [sliceBytes_length]
    exact hND
  · exact hlast.trans (congrArg some hND)

lemma writeHdr_below (buf : Nat → Nat) (pos id st en j : Nat) (h : j < pos) :
    writeHdr buf pos id st en j = buf j := by
  unfold writeHdr
  rw [if_neg]
  intro hc
  omega

lemma sendloopF_final_below (id : Nat) : ∀ (n start : Nat) (buf : Nat → Nat) (j : Nat),
    j < start → (sendloopF n id buf start).2 j = buf j := by
  intro n
  induction n with
  | zero => intro start buf j _; rfl
  | succ n ih =>
      intro start buf j hj
      by_cases h : start + PACKETSIZE < WBUFSIZE
      · rw [sendloopF_rec n id buf start h]
        rw [ih (start + PACKETSIZE - FRAG_HDR_SIZE) _ j
          (by simp only [PACKETSIZE, FRAG_HDR_SIZE] at *; omega)]
        exact writeHdr_below buf start id start _ j hj
      · rw [sendloopF_base n id buf start h]
        exact writeHdr_below buf start id start _ j hj

lemma sendloopF_final_hdr (n id : Nat) (buf : Nat → Nat) (start j : Nat)
    (h : start + PACKETSIZE < WBUFSIZE) (hj : j < FRAG_HDR_SIZE) :
    (sendloopF (n + 1) id buf start).2 (start + j)
      = hdrByte id start (start + PACKETSIZE - FRAG_HDR_SIZE) j := by
  rw [sendloopF_rec n id buf start h]
  rw [sendloopF_final_below id n (start + PACKETSIZE - FRAG_HDR_SIZE) _
    (start + j)
    (by simp only [PACKETSIZE, FRAG_HDR_SIZE] at *; omega)]
  unfold writeHdr
  rw [if_pos ⟨by omega, by simp only [FRAG_HDR_SIZE] at *; omega⟩]
  congr 1
  omega

/-- The byte the first `senddata` leaves at workbuf offset 1392 (payload
offset 1384): the low byte of the event id, written there as byte 0 of
the second fragment's header. -/
lemma sendloop_buf_at_1392 (id : Nat) (buf : Nat → Nat) :
    (sendloop id buf 0).2 1392 = id &&& 0xff := by
  have h3 := congrArg (fun p : List Frag × (Nat → Nat) => p.2 1392)
    (sendloopF_rec WBUFSIZE id buf 0 (by decide))
  have h2 := sendloopF_final_hdr (WBUFSIZE - 1) id
    (writeHdr buf 0 id 0 (0 + PACKETSIZE - FRAG_HDR_SIZE))
    (0 + PACKETSIZE - FRAG_HDR_SIZE) 0 (by decide) (by decide)
  have e : ((0 : Nat) + PACKETSIZE - FRAG_HDR_SIZE) + 0 = 1392 := by decide
  rw [e] at h2
  have hW : WBUFSIZE - 1 + 1 = WBUFSIZE := by decide
  rw [hW] at h2
  show (sendloopF (WBUFSIZE + 1) id buf 0).2 1392 = id &&& 0xff
  refine (h3.trans h2).trans ?_
  simp [hdrByte]

lemma sliceBytes_getElem (f : Nat → Nat) (a b k : Nat) (hk : k < b - a) :
    (sliceBytes f a b)[k]? = some (f (a + k)) := by
  simp [sliceBytes, hk]

lemma testBit31_or_tag (x : Nat) : (x ||| 0x80000000).testBit 31 = true := by
  rw [Nat.testBit_or]
  have h : (0x80000000 : Nat).testBit 31 = true := by decide
  rw [h, Bool.or_true]

/-- C10: in netscope's acquisition loop the result of `read_evt_read` is
discarded and `senddata` runs unconditionally, so an iteration on which no
event was read retransmits the stored header and buffer; because the
previous `senddata` already set the tag bit in the stored `sh.id` and
overwrote trailing payload bytes with fragment headers, that
retransmission carries a tagged id in all its packets (fragments
included) and a fragment-payload concatenation differing from the
original event payload. -/
theorem netscope_stale_retransmission (st0 : ScopeState)
    (hdiff : st0.workbuf 1392 ≠ st0.sh.id &&& 0xff) :
    netscope_loop_iter (senddata st0).2 none = senddata (senddata st0).2 ∧
    (∀ p ∈ (netscope_loop_iter (senddata st0).2 none).1, p.pid.testBit 31 = true) ∧
    ((sendloop (senddata st0).2.sh.id (senddata st0).2.workbuf 0).1.map
        Frag.payload).flatten ≠ sliceBytes st0.workbuf FRAG_HDR_SIZE WBUFSIZE := by
  have hid1 : (senddata st0).2.sh.id = st0.sh.id ||| 0x80000000 := rfl
  have hspec := sendloopF_spec (senddata st0).2.sh.id (senddata st0).2.workbuf
    (WBUFSIZE + 1) 0 (senddata st0).2.workbuf
    (by omega)
    (by decide)
    (fun _ _ => rfl)
  obtain ⟨_, _, _, hfrag, hjoin, _⟩ := hspec
  refine ⟨rfl, ?_, ?_⟩
  · intro p hp
    rcases List.mem_cons.mp hp with rfl | hp
    · show ((senddata st0).2.sh.id ||| 0x80000000).testBit 31 = true
      exact testBit31_or_tag _
    · rw [List.mem_map] at hp
      obtain ⟨f, hf, rfl⟩ := hp
      show f.id.testBit 31 = true
      rw [(hfrag f hf).1, hid1]
      exact testBit31_or_tag _
  · intro hEq
    have hS : sliceBytes (senddata st0).2.workbuf (0 + FRAG_HDR_SIZE) WBUFSIZE
        = sliceBytes st0.workbuf FRAG_HDR_SIZE WBUFSIZE := hjoin.symm.trans hEq
    have h1 : (sliceBytes (senddata st0).2.workbuf (0 + FRAG_HDR_SIZE) WBUFSIZE)[1384]?
        = some ((senddata st0).2.workbuf (0 + FRAG_HDR_SIZE + 1384)) :=
      sliceBytes_getElem _ _ _ 1384 (by decide)
    have h2 : (sliceBytes st0.workbuf FRAG_HDR_SIZE WBUFSIZE)[1384]?
        = some (st0.workbuf (FRAG_HDR_SIZE + 1384)) :=
      sliceBytes_getElem _ _ _ 1384 (by decide)
    have h4 : some ((senddata st0).2.workbuf (0 + FRAG_HDR_SIZE + 1384))
        = some (st0.workbuf (FRAG_HDR_SIZE + 1384)) :=
      h1.symm.trans ((congrArg (fun l : List Nat => l[1384]?) hS).trans h2)
    have hbuf : (senddata st0).2.workbuf (0 + FRAG_HDR_SIZE + 1384)
        = st0.sh.id &&& 0xff := by
      show (sendloop st0.sh.id st0.workbuf 0).2 1392 = st0.sh.id &&& 0xff
      exact sendloop_buf_at_1392 st0.sh.id st0.workbuf
    have h5 : st0.workbuf (FRAG_HDR_SIZE + 1384) = st0.sh.id &&& 0xff :=
      (Option.some.inj h4).symm.trans hbuf
    exact hdiff (show st0.workbuf 1392 = st0.sh.id &&& 0xff from h5)

/-- Witness for C10: an all-zero payload with event id 1 (its low byte, 1,
differs from the payload byte at offset 1384). -/
theorem netscope_stale_retransmission_witness :
    ((⟨⟨1, 0, 0, 0, 0, 0, 0⟩, fun _ => 0⟩ : ScopeState).workbuf 1392
        ≠ (⟨⟨1, 0, 0, 0, 0, 0, 0⟩, fun _ => 0⟩ : ScopeState).sh.id &&& 0xff) ∧
    (netscope_loop_iter (senddata ⟨⟨1, 0, 0, 0, 0, 0, 0⟩, fun _ => 0⟩).2 none
        = senddata (senddata ⟨⟨1, 0, 0, 0, 0, 0, 0⟩, fun _ => 0⟩).2 ∧
     (∀ p ∈ (netscope_loop_iter (senddata ⟨⟨1, 0, 0, 0, 0, 0, 0⟩, fun _ => 0⟩).2 none).1,
        p.pid.testBit 31 = true) ∧
     ((sendloop (senddata ⟨⟨1, 0, 0, 0, 0, 0, 0⟩, fun _ => 0⟩).2.sh.id
         (senddata ⟨⟨1, 0, 0, 0, 0, 0, 0⟩, fun _ => 0⟩).2.workbuf 0).1.map
         Frag.payload).flatten
       ≠ sliceBytes (⟨⟨1, 0, 0, 0, 0, 0, 0⟩, fun _ => 0⟩ : ScopeState).workbuf
           FRAG_HDR_SIZE WBUFSIZE) :=
  ⟨by decide, netscope_stale_retransmission ⟨⟨1, 0, 0, 0, 0, 0, 0⟩, fun _ => 0⟩ (by decide)⟩

end ESS
